import Mathlib

/-!
# Verification of the personnel analytics / team-selection engine

Shallow embedding of `utils/logic.py` of the `mongohaack` repository.

A pandas `DataFrame` of personnel records is modelled as a list of `Row`s
plus a flag recording whether the optional `Attrition_Risk` column exists.
A cell that is `NaN`/missing is `none`.  Numeric cells are rationals
(`ℚ`); the dashboard's float arithmetic is exact decimal arithmetic on
the values involved, so rationals model it faithfully.  `Performance_Rating`
is modelled in its numeric form (the source also tolerates categorical
labels; those appear only in scenario analyzers through pandas `isin`
string matching, which can never equal a numeric cell — noted where used).

pandas multi-column `sort_values` (a stable lexicographic sort) is
modelled by a stable insertion sort `sortBy` over a boolean comparator;
none of the verified properties depend on the order of ties.
-/

namespace Mongohaack

/-- One personnel record (one row of the CSV‑backed DataFrame).
A `none` field is a missing value (`NaN`). -/
structure Row where
  Personnel_ID : Option String := none
  Name : Option String := none
  Rank : Option String := none
  Primary_Skill : Option String := none
  Years_of_Service : Option ℚ := none
  Performance_Rating : Option ℚ := none
  Training_Score : Option ℚ := none
  Training_Course : Option String := none
  Medical_Category : Option String := none
  BMI : Option ℚ := none
  Leadership_Potential : Option String := none
  Readiness_Level : Option String := none
  Attrition_Risk : Option String := none
  Missions_Completed : Option ℚ := none
deriving Repr, DecidableEq

/-- The input table: the rows, plus whether the optional `Attrition_Risk`
column is present in the schema (`"Attrition_Risk" in df.columns`). -/
structure Table where
  rows : List Row
  hasAttritionRisk : Bool := false
deriving Repr, DecidableEq

/-- `MEDICAL_SCORE` lookup table from `logic.py`. -/
def MEDICAL_SCORE : List (String × ℚ) :=
  [("A1", 100), ("A2", 95), ("B1", 88), ("B2", 82), ("C1", 75), ("C2", 68)]

/-- `READINESS_SCORE` lookup table from `logic.py`. -/
def READINESS_SCORE : List (String × ℚ) := [("High", 3), ("Medium", 2), ("Low", 1)]

/-- `LEADERSHIP_MAP` lookup table from `logic.py`. -/
def LEADERSHIP_MAP : List (String × ℚ) :=
  [("High", 3), ("Medium", 2), ("Low", 1), ("Yes", 3), ("No", 1)]

/-- `ATTRITION_RISK_MAP` lookup table from `logic.py`. -/
def ATTRITION_RISK_MAP : List (String × ℚ) := [("High", 3), ("Medium", 2), ("Low", 1)]

/-- pandas `series.map(tbl).fillna(dflt)`: a missing cell, or a cell not in
the mapping, becomes the default. -/
def mapFillna (tbl : List (String × ℚ)) (dflt : ℚ) (v : Option String) : ℚ :=
  (v.bind (fun s => tbl.lookup s)).getD dflt

/-- A row of the enriched table: the original row plus the four derived
numeric columns appended by `add_derived_columns`. -/
structure ERow where
  base : Row
  Medical_Score : ℚ
  Leadership_Score : ℚ
  Readiness_Score : ℚ
  Attrition_Score : ℚ
deriving Repr, DecidableEq

/-- The enriched row computed for `r` by `add_derived_columns`. -/
def enrichRow (hasAttr : Bool) (r : Row) : ERow :=
  { base := r
    Medical_Score := mapFillna MEDICAL_SCORE 60 r.Medical_Category
    Leadership_Score := mapFillna LEADERSHIP_MAP 1 r.Leadership_Potential
    Readiness_Score := mapFillna READINESS_SCORE 1 r.Readiness_Level
    Attrition_Score :=
      if hasAttr then mapFillna ATTRITION_RISK_MAP 2 r.Attrition_Risk else 2 }

/-- `add_derived_columns(df)`: works on a copy of the table and appends the
four derived score columns; original columns are untouched. -/
def add_derived_columns (t : Table) : List ERow :=
  t.rows.map (enrichRow t.hasAttritionRisk)

/-! ## Stable sorting (model of pandas `sort_values`) -/

/-- Insert `a` in front of the first element `b` with `le a b`. -/
def insertSorted (le : α → α → Bool) (a : α) : List α → List α
  | [] => [a]
  | b :: l => if le a b then a :: b :: l else b :: insertSorted le a l

/-- Stable insertion sort by a boolean comparator; models pandas
`sort_values`, which is stable for multi-column (lexsort) keys.  The
verified properties never depend on the order of ties. -/
def sortBy (le : α → α → Bool) : List α → List α
  | [] => []
  | a :: l => insertSorted le a (sortBy le l)

/-- Ascending comparison on an optional numeric sort key; missing values
sort last (pandas `na_position='last'`). -/
def optLeAsc (a b : Option ℚ) : Bool :=
  match a, b with
  | some x, some y => decide (x ≤ y)
  | some _, none => true
  | none, none => true
  | none, some _ => false

/-- Descending comparison on an optional numeric sort key; missing values
sort last. -/
def optLeDesc (a b : Option ℚ) : Bool :=
  match a, b with
  | some x, some y => decide (y ≤ x)
  | some _, none => true
  | none, none => true
  | none, some _ => false

/-- Python string comparison (lexicographic on code points), as used by
pandas when sorting a column of strings. -/
def charListLt : List Char → List Char → Bool
  | [], [] => false
  | [], _ :: _ => true
  | _ :: _, [] => false
  | a :: as, b :: bs => if a < b then true else if b < a then false else charListLt as bs

/-! ## `who_is_going_to_leave` (attrition report) -/

/-- Comparator for `sort_values(["Attrition_Score", "Years_of_Service"],
ascending=[False, True])`. -/
def leAttrRisk (a b : ERow) : Bool :=
  if a.Attrition_Score = b.Attrition_Score then
    optLeAsc a.base.Years_of_Service b.base.Years_of_Service
  else decide (b.Attrition_Score ≤ a.Attrition_Score)

/-- The heuristic risk count of `who_is_going_to_leave`:
how many of {years of service > 20, performance ≤ 2, training < 50} hold
(missing values default to 0 / 3 / 60 first, per the `fillna` calls). -/
def heuristicScore (r : Row) : ℕ :=
  (if r.Years_of_Service.getD 0 > 20 then 1 else 0)
  + (if r.Performance_Rating.getD 3 ≤ 2 then 1 else 0)
  + (if r.Training_Score.getD 60 < 50 then 1 else 0)

/-- `np.where(score >= 2, "High", np.where(score == 1, "Medium", "Low"))`. -/
def heuristicTier (r : Row) : String :=
  if heuristicScore r ≥ 2 then "High" else if heuristicScore r = 1 then "Medium" else "Low"

/-- Comparator for `sort_values(["Heuristic_Attrition", "Years_of_Service"],
ascending=[False, True])`.  The primary key is the tier **string**, which
pandas orders lexicographically. -/
def leHeur (a b : ERow) : Bool :=
  if heuristicTier a.base = heuristicTier b.base then
    optLeAsc a.base.Years_of_Service b.base.Years_of_Service
  else charListLt (heuristicTier b.base).data (heuristicTier a.base).data

/-- `who_is_going_to_leave(df, top_n=50)`: rank by attrition risk
(real `Attrition_Risk` column if present, else the heuristic tier) and
return the top `top_n` rows.  The returned rows are the underlying
personnel records (the column projection drops no rows). -/
def who_is_going_to_leave (t : Table) (top_n : ℕ := 50) : List Row :=
  let d := add_derived_columns t
  if t.hasAttritionRisk then
    ((sortBy leAttrRisk d).take top_n).map ERow.base
  else
    ((sortBy leHeur d).take top_n).map ERow.base

/-! ## `who_needs_training` and `leadership_list` -/

/-- `who_needs_training(df, thresh=60)`: rows whose training score
(missing treated as 0) is below the threshold, sorted ascending by
training score. -/
def who_needs_training (t : Table) (thresh : ℚ := 60) : List Row :=
  let d := add_derived_columns t
  let need := d.filter (fun e => decide (e.base.Training_Score.getD 0 < thresh))
  (sortBy (fun a b => optLeAsc a.base.Training_Score b.base.Training_Score) need).map ERow.base

/-- Comparator for `sort_values(["Leadership_Score", "Performance_Rating"],
ascending=[False, False])`. -/
def leLeader (a b : ERow) : Bool :=
  if a.Leadership_Score = b.Leadership_Score then
    optLeDesc a.base.Performance_Rating b.base.Performance_Rating
  else decide (b.Leadership_Score ≤ a.Leadership_Score)

/-- `leadership_list(df)`: all rows sorted by leadership score then
performance rating, both descending; no truncation. -/
def leadership_list (t : Table) : List ERow :=
  sortBy leLeader (add_derived_columns t)

/-! ## `select_best_team` -/

/-- A scored candidate row: its positional DataFrame index (the label used
by `drop`/`loc`), the enriched row, and the computed `Overall` score. -/
structure TRow where
  idx : ℕ
  e : ERow
  Overall : ℚ
deriving Repr, DecidableEq

/-- pandas `Series.max()` (`none` for an empty column). -/
def listMaxQ : List ℚ → Option ℚ
  | [] => none
  | x :: xs => some (xs.foldl max x)

/-- The safe numeric cast of `Performance_Rating`
(`pd.to_numeric(..., errors="coerce").fillna(0)`). -/
def perfCast (e : ERow) : ℚ := e.base.Performance_Rating.getD 0

/-- The safe numeric cast of `Training_Score`. -/
def trainCast (e : ERow) : ℚ := e.base.Training_Score.getD 0

/-- The safe numeric cast of `Missions_Completed`. -/
def missionsCast (e : ERow) : ℚ := e.base.Missions_Completed.getD 0

/-- The divisor used to normalize performance:
`5.0 if d["Performance_Rating"].max() <= 5 else max(d["Performance_Rating"].max(), 1)`.
On an empty table the pandas maximum is `NaN`; no row is scored then, so the
value chosen here is never used. -/
def perfDenom (d : List ERow) : ℚ :=
  match listMaxQ (d.map perfCast) with
  | some m => if m ≤ 5 then 5 else max m 1
  | none => 5

/-- `denom_missions = float(max(d["Missions_Completed"].max(), 1))`; again the
empty-table value is never used. -/
def missionsDenom (d : List ERow) : ℚ :=
  match listMaxQ (d.map missionsCast) with
  | some m => max m 1
  | none => 1

/-- The weighted `Overall` score of one row, given the two normalization
divisors of the table. -/
def overall (pdv mdv : ℚ) (e : ERow) : ℚ :=
  2.5 * e.Readiness_Score + 1.5 * e.Leadership_Score
    + 1.2 * (perfCast e / pdv) + 1.0 * (e.Medical_Score / 100)
    + 0.6 * (trainCast e / 100) + 0.4 * (missionsCast e / mdv)

/-- The enriched, indexed, `Overall`-scored candidate table built by the
first half of `select_best_team`.  (`add_derived_columns` always attaches
`Medical_Score`/`Readiness_Score`/`Leadership_Score`, so the source's
`if "..._Score" not in d.columns` re-derivation block is unreachable and
is not modelled.) -/
def scoreTable (t : Table) : List TRow :=
  let d := add_derived_columns t
  let pdv := perfDenom d
  let mdv := missionsDenom d
  d.enum.map (fun p => ⟨p.1, p.2, overall pdv mdv p.2⟩)

/-- pandas `d["Primary_Skill"].isin(required_roles)` (`NaN` is not in any
set). -/
def skillIsin (roles : List String) (e : ERow) : Bool :=
  match e.base.Primary_Skill with
  | some s => roles.contains s
  | none => false

/-- Comparator for `sort_values("Overall", ascending=False)`. -/
def leOverall (a b : TRow) : Bool := decide (b.Overall ≤ a.Overall)

/-- One iteration of the role-reservation loop: the index of the
highest-`Overall` row whose `Primary_Skill` equals `role`
(`sub.sort_values("Overall", ascending=False).index[0]`), or `none` when no
row matches. -/
def pickForRole (d : List TRow) (role : String) : Option ℕ :=
  let sub := d.filter (fun x => x.e.base.Primary_Skill == some role)
  match sortBy leOverall sub with
  | [] => none
  | x :: _ => some x.idx

/-- The candidate table after the restrict-to-roles step of
`select_best_team`: when `restrict_to_roles` and a non-empty role list are
given, only rows whose primary skill is in the set; otherwise all rows
(Python truthiness of `required_roles` is `!required_roles.isEmpty`). -/
def candidates (t : Table) (required_roles : List String)
    (restrict_to_roles : Bool) : List TRow :=
  if restrict_to_roles && !required_roles.isEmpty
  then (scoreTable t).filter (fun x => skillIsin required_roles x.e)
  else scoreTable t

/-- `select_best_team(df, headcount, required_roles=None, restrict_to_roles=False)`.
`required_roles = []` plays the part of Python's falsy `None`/`[]`.
Returns the selected candidate rows (the final column projection keeps
every row, so it is not modelled).  `remaining` uses truncated `ℕ`
subtraction, which is exactly `max(0, headcount - len(picked_idx))`;
`locPicked` is `d.loc[picked_idx]` (one block of label-matching rows per
list entry) and the `!picked_idx.contains ·` filter is
`d.drop(index=picked_idx)`. -/
def select_best_team (t : Table) (headcount : ℕ)
    (required_roles : List String := []) (restrict_to_roles : Bool := false) :
    List TRow :=
  let d := candidates t required_roles restrict_to_roles
  let picked_idx : List ℕ :=
    if !required_roles.isEmpty && !restrict_to_roles
    then required_roles.filterMap (pickForRole d) else []
  let locPicked := picked_idx.flatMap (fun i => d.filter (fun x => x.idx == i))
  let remaining := headcount - picked_idx.length
  let rest := ((sortBy leOverall (d.filter (fun x => !picked_idx.contains x.idx))).take remaining)
  (sortBy leOverall (locPicked ++ rest)).take headcount

/-- The number of candidate rows available to `select_best_team` after the
restrict-to-roles filtering (all rows when not restricting). -/
def availableRows (t : Table) (required_roles : List String)
    (restrict_to_roles : Bool) : ℕ :=
  (candidates t required_roles restrict_to_roles).length

/-! ## `what_if_simulation` (keyword-routed query engine)

Text is handled as lists of characters so that every operation
(lower-casing, substring search, position search) is the corresponding
Python `str` operation on code points. -/

/-- `text.lower()`. -/
def lowerStr (s : String) : List Char := s.data.map Char.toLower

/-- Python `needle in hay` on strings (substring containment). -/
def isSubstr : List Char → List Char → Bool
  | n, [] => n.isEmpty
  | n, c :: t => n.isPrefixOf (c :: t) || isSubstr n t

/-- `kw in text_low` for an (already lower-case) keyword. -/
def inText (kw : String) (tl : List Char) : Bool := isSubstr kw.data tl

/-- `any(word in text_low for word in kws)`. -/
def anyIn (kws : List String) (tl : List Char) : Bool := kws.any (fun k => inText k tl)

/-- pandas `col.str.contains(pat, case=False, na=False)` applied to one
cell: case-insensitive substring match, `False` on a missing value. -/
def containsCI (cell : Option String) (pat : String) : Bool :=
  match cell with
  | some h => isSubstr (lowerStr pat) (lowerStr h)
  | none => false

/-- Python `hay.find(needle)` from position `start` (`-1`-free variant:
`none` when absent; every use in the source is guarded by a containment
check, so only found positions are ever compared). -/
def findFrom (needle : List Char) : List Char → ℕ → Option ℕ
  | [], start => if needle.isEmpty then some start else none
  | c :: t, start =>
    if needle.isPrefixOf (c :: t) then some start else findFrom needle t (start + 1)

/-- `text_low.find(s)` with the guarantee (at every call site) that `s`
occurs in `text_low`. -/
def posOf (needle tl : List Char) : ℕ := (findFrom needle tl 0).getD 0

/-- `re.search(r"(\d{2})", text)`: the first two adjacent digits. -/
def firstTwoDigits : List Char → Option ℕ
  | [] => none
  | [_] => none
  | a :: b :: rest =>
    if a.isDigit && b.isDigit then some ((a.toNat - 48) * 10 + (b.toNat - 48))
    else firstTwoDigits (b :: rest)

/-- `re.search(r"(\d{1,3})", text)`: the first run of digits, capped at
three digits. -/
def firstNum3 : List Char → Option ℕ
  | [] => none
  | a :: rest =>
    if a.isDigit then
      match rest with
      | [] => some (a.toNat - 48)
      | b :: rest2 =>
        if b.isDigit then
          match rest2 with
          | [] => some ((a.toNat - 48) * 10 + (b.toNat - 48))
          | c :: _ =>
            if c.isDigit then
              some (((a.toNat - 48) * 10 + (b.toNat - 48)) * 10 + (c.toNat - 48))
            else some ((a.toNat - 48) * 10 + (b.toNat - 48))
        else some (a.toNat - 48)
    else firstNum3 rest

/-- `df["Primary_Skill"].dropna().unique().tolist()`: the distinct skill
values in first-occurrence order. -/
def uniqueSkills (t : Table) : List String :=
  (t.rows.filterMap Row.Primary_Skill).foldl
    (fun acc s => if acc.contains s then acc else acc ++ [s]) []

/-- pandas `Series.isin(labels)` for a list of *string* labels against the
(numeric) performance-rating column: a numeric cell never equals a string
label, so nothing matches.  (The source mixes a categorical and a numeric
representation of `Performance_Rating`; this embedding models the numeric
one — see the header comment.) -/
def numIsinLabels (_ : Option ℚ) (_ : List String) : Bool := false

/-- The result of `what_if_simulation`: the `action` tag and the rows
backing `data`.  The narrative `analysis` string and the fixed
`recommendations` list are presentation-only and carry no row data, so
they are not modelled. -/
structure WhatIfResult where
  action : String
  data : List Row
deriving Repr, DecidableEq

/-- `_analyze_retirement_scenario`: the filter applied to one enriched row,
an AND of every criterion mentioned in the query. -/
def retirementFilter (tl : List Char) (e : ERow) : Bool :=
  (!inText "senior" tl
      || match e.base.Years_of_Service with
         | some y => decide (15 ≤ y)
         | none => false)
  && (!inText "officer" tl
      || (containsCI e.base.Rank "Officer" || containsCI e.base.Rank "Captain"
          || containsCI e.base.Rank "Major" || containsCI e.base.Rank "Colonel"))
  && (!inText "pilot" tl || containsCI e.base.Primary_Skill "Pilot")
  && (!inText "engineer" tl || containsCI e.base.Primary_Skill "Engineer")

/-- `_analyze_retirement_scenario` (its `data` is the filtered candidate
table; the impact metrics feed only the narrative string). -/
def analyzeRetirement (t : Table) (tl : List Char) : WhatIfResult :=
  let d := add_derived_columns t
  ⟨"retirement_impact", ((d.filter (retirementFilter tl)).map ERow.base)⟩

/-- The from/to-skill extraction loop of `_analyze_redeployment_scenario`. -/
def redeployExtract (t : Table) (tl : List Char) : Option String × Option String :=
  (uniqueSkills t).foldl
    (fun acc skill =>
      if isSubstr (lowerStr skill) tl then
        if inText "from" tl && decide (posOf (lowerStr skill) tl < posOf "from".data tl) then
          (some skill, acc.2)
        else if inText "to" tl && decide (posOf "to".data tl < posOf (lowerStr skill) tl) then
          (acc.1, some skill)
        else if acc.1.isNone then (some skill, acc.2)
        else (acc.1, some skill)
      else acc)
    (none, none)

/-- `_analyze_redeployment_scenario`: candidates are rows of the
"from" skill (case-insensitive substring); with no skill named, the
fallback `Performance_Rating.isin(["Below Average", "Average"])` selects
nothing from a numeric rating column. -/
def analyzeRedeployment (t : Table) (tl : List Char) : WhatIfResult :=
  let d := add_derived_columns t
  let fromSkill := (redeployExtract t tl).1
  let cands :=
    match fromSkill with
    | some fs => d.filter (fun (e : ERow) => containsCI e.base.Primary_Skill fs)
    | none =>
      d.filter (fun (e : ERow) =>
        numIsinLabels e.base.Performance_Rating ["Below Average", "Average"])
  ⟨"redeployment_impact", cands.map ERow.base⟩

/-- `_analyze_grounding_scenario`: pilots with a disqualifying medical
category, medical score or BMI (`NaN` comparisons are `False`). -/
def analyzeGrounding (t : Table) (_tl : List Char) : WhatIfResult :=
  let d := add_derived_columns t
  let pilots := d.filter (fun e => containsCI e.base.Primary_Skill "Pilot")
  let medicalIssues := pilots.filter (fun (e : ERow) =>
    (match e.base.Medical_Category with
     | some c => ["C1", "C2"].contains c
     | none => false)
    || decide (e.Medical_Score < 70)
    || (match e.base.BMI with | some b => decide (30 < b) | none => false)
    || (match e.base.BMI with | some b => decide (b < 18.5) | none => false))
  ⟨"grounding_impact", medicalIssues.map ERow.base⟩

/-- `_analyze_promotion_scenario`: requires `Performance_Rating` to be one
of two string labels, which a numeric rating column never is. -/
def analyzePromotion (t : Table) (_tl : List Char) : WhatIfResult :=
  let d := add_derived_columns t
  let cands := d.filter (fun (e : ERow) =>
    (match e.base.Leadership_Potential with
     | some c => ["High", "Yes"].contains c
     | none => false)
    && numIsinLabels e.base.Performance_Rating ["Excellent", "Good"]
    && (match e.base.Years_of_Service with | some y => decide (5 ≤ y) | none => false))
  ⟨"promotion_impact", (sortBy leLeader cands).map ERow.base⟩

/-- `_analyze_budget_scenario`: the high-cost filter (raw `Training_Score`,
so missing values compare `False`). -/
def analyzeBudget (t : Table) (_tl : List Char) : WhatIfResult :=
  let d := add_derived_columns t
  let highCost := d.filter (fun (e : ERow) =>
    (match e.base.Training_Score with | some s => decide (80 < s) | none => false)
    || decide (e.Medical_Score < 70)
    || numIsinLabels e.base.Performance_Rating ["Below Average", "Average"])
  ⟨"budget_impact", highCost.map ERow.base⟩

/-- `what_if_simulation(df, text)`: lower-case the query, test the keyword
sets in priority order, first match wins, default to the attrition
ranking.  (The optional OpenAI client is initialized but never consulted
on any keyword path, so it does not appear in the model.) -/
def what_if_simulation (t : Table) (text : String) : WhatIfResult :=
  let tl := lowerStr text
  if anyIn ["retire", "retiring", "retirement"] tl then analyzeRetirement t tl
  else if anyIn ["redeploy", "redeployment", "transfer", "move"] tl then
    analyzeRedeployment t tl
  else if anyIn ["ground", "grounding", "medical", "unfit", "disqualify"] tl then
    analyzeGrounding t tl
  else if anyIn ["promote", "promotion", "advance"] tl then analyzePromotion t tl
  else if anyIn ["budget", "cost", "financial", "expense"] tl then analyzeBudget t tl
  else if inText "training" tl && anyIn ["threshold", "score", "<", "less than", "below"] tl then
    let thresh := (firstTwoDigits tl).getD 60
    ⟨"show_training_below_" ++ toString thresh, who_needs_training t (thresh : ℚ)⟩
  else if inText "leaders" tl || inText "leadership" tl then
    let skill := (uniqueSkills t).find? (fun s => isSubstr (lowerStr s) tl)
    let tab := leadership_list t
    let tab2 :=
      match skill with
      | some sk => tab.filter (fun (e : ERow) =>
          (e.base.Primary_Skill.map lowerStr) == some (lowerStr sk))
      | none => tab
    ⟨"show_leadership", (tab2.take 50).map ERow.base⟩
  else if inText "team" tl || inText "readiness" tl then
    let n := (firstNum3 tl).getD 10
    let roles := (uniqueSkills t).filter (fun s => isSubstr (lowerStr s) tl)
    ⟨"select_team", (select_best_team t n roles false).map (fun x => x.e.base)⟩
  else
    ⟨"show_attrition", who_is_going_to_leave t 50⟩

/-! ## Spec-side restatements (used only to compare against the source)

These definitions follow the *spec's wording* of the lookup tables and of
the `Overall` formula; the theorems below prove them equal to what the
source computes. -/

/-- Medical score as the spec words it: A1→100, A2→95, B1→88, B2→82,
C1→75, C2→68, default 60. -/
def medSpec (v : Option String) : ℚ :=
  match v with
  | none => 60
  | some s =>
    if s = "A1" then 100 else if s = "A2" then 95 else if s = "B1" then 88
    else if s = "B2" then 82 else if s = "C1" then 75 else if s = "C2" then 68
    else 60

/-- Leadership score as the spec words it: High→3, Medium→2, Low→1,
Yes→3, No→1, default 1. -/
def leadSpec (v : Option String) : ℚ :=
  match v with
  | none => 1
  | some s =>
    if s = "High" then 3 else if s = "Medium" then 2 else if s = "Low" then 1
    else if s = "Yes" then 3 else if s = "No" then 1 else 1

/-- Readiness score as the spec words it: High→3, Medium→2, Low→1,
default 1. -/
def readySpec (v : Option String) : ℚ :=
  match v with
  | none => 1
  | some s =>
    if s = "High" then 3 else if s = "Medium" then 2 else if s = "Low" then 1
    else 1

/-- Attrition score as the spec words it: High→3, Medium→2, Low→1,
default 2. -/
def attrSpec (v : Option String) : ℚ :=
  match v with
  | none => 2
  | some s =>
    if s = "High" then 3 else if s = "Medium" then 2 else if s = "Low" then 1
    else 2

/-- The `Overall` score exactly as the spec words it:
`2.5×readiness + 1.5×leadership + 1.2×(performance / 5, or / the observed
maximum performance when that maximum exceeds 5) + 1.0×(medical / 100)
+ 0.6×(training / 100) + 0.4×(missions / observed maximum missions, with a
floor of 1 on the divisor)`. -/
def overallSpec (t : Table) (e : ERow) : ℚ :=
  let d := add_derived_columns t
  let perfMax := (listMaxQ (d.map perfCast)).getD 0
  let misMax := (listMaxQ (d.map missionsCast)).getD 0
  2.5 * e.Readiness_Score + 1.5 * e.Leadership_Score
    + 1.2 * (perfCast e / (if 5 < perfMax then perfMax else 5))
    + 1.0 * (e.Medical_Score / 100)
    + 0.6 * (trainCast e / 100)
    + 0.4 * (missionsCast e / max misMax 1)

/-! ## Concrete input tables for witnesses and counterexamples -/

/-- A long-serving, low-performing, under-trained record: all three
heuristic attrition criteria hold, so its heuristic tier is `High`. -/
def rowA : Row :=
  { Personnel_ID := some "A"
    Years_of_Service := some 25
    Performance_Rating := some 1
    Training_Score := some 40 }

/-- A junior, high-performing, well-trained record: no heuristic
attrition criterion holds, so its heuristic tier is `Low`. -/
def rowB : Row :=
  { Personnel_ID := some "B"
    Years_of_Service := some 1
    Performance_Rating := some 5
    Training_Score := some 90 }

/-- A two-row table without an `Attrition_Risk` column; the `High`-tier
row comes first in the input. -/
def tblC3 : Table := { rows := [rowA, rowB], hasAttritionRisk := false }

/-- A single Pilot record (all other fields missing). -/
def rowP : Row := { Personnel_ID := some "P", Primary_Skill := some "Pilot" }

/-- A one-row table holding only `rowP`. -/
def tblP : Table := { rows := [rowP], hasAttritionRisk := false }

/-- The enriched form of `rowP`. -/
def eP : ERow := enrichRow false rowP

/-- The scored candidate row that `select_best_team` builds from `tblP`. -/
def xP : TRow :=
  ⟨0, eP, overall (perfDenom (add_derived_columns tblP))
    (missionsDenom (add_derived_columns tblP)) eP⟩

/-- An Engineer record. -/
def rowE : Row := { Personnel_ID := some "E", Primary_Skill := some "Engineer" }

/-- A Medical-specialist record. -/
def rowM : Row := { Personnel_ID := some "M", Primary_Skill := some "Medical" }

/-- A two-row table with one Engineer and one Medical row. -/
def tblEM : Table := { rows := [rowE, rowM], hasAttritionRisk := false }

/-- A table of 51 identical rows (more than the 50-row truncation of the
what-if leadership branch). -/
def tbl51 : Table := { rows := List.replicate 51 rowP, hasAttritionRisk := false }

/-! ## Helper lemmas about `sortBy` -/

theorem length_insertSorted (le : α → α → Bool) (a : α) (l : List α) :
    (insertSorted le a l).length = l.length + 1 := by
  induction l with
  | nil => rfl
  | cons b l ih =>
    simp only [insertSorted]
    split
    · simp
    · simp [ih]

theorem perm_insertSorted (le : α → α → Bool) (a : α) (l : List α) :
    (insertSorted le a l).Perm (a :: l) := by
  induction l with
  | nil => exact List.Perm.refl _
  | cons b l ih =>
    simp only [insertSorted]
    split
    · exact List.Perm.refl _
    · exact (List.Perm.cons b ih).trans (List.Perm.swap a b l)

theorem perm_sortBy (le : α → α → Bool) (l : List α) : (sortBy le l).Perm l := by
  induction l with
  | nil => exact List.Perm.refl _
  | cons a l ih =>
    exact (perm_insertSorted le a (sortBy le l)).trans (List.Perm.cons a ih)

theorem length_sortBy (le : α → α → Bool) (l : List α) :
    (sortBy le l).length = l.length :=
  (perm_sortBy le l).length_eq

theorem mem_sortBy {le : α → α → Bool} {a : α} {l : List α} :
    a ∈ sortBy le l ↔ a ∈ l :=
  (perm_sortBy le l).mem_iff

/-! ## The derived-score lookups agree with the spec's tables -/

theorem lookup_str_ne {β : Type u} {s k : String} (h : ¬s = k) (b : β)
    (es : List (String × β)) : ((k, b) :: es).lookup s = es.lookup s := by
  cases hsk : s == k with
  | true => exact absurd (beq_iff_eq.mp hsk) h
  | false => simp [List.lookup, hsk]

theorem mapFillna_medical (v : Option String) :
    mapFillna MEDICAL_SCORE 60 v = medSpec v := by
  cases v with
  | none => rfl
  | some s =>
    by_cases h1 : s = "A1"
    · subst h1; decide
    by_cases h2 : s = "A2"
    · subst h2; decide
    by_cases h3 : s = "B1"
    · subst h3; decide
    by_cases h4 : s = "B2"
    · subst h4; decide
    by_cases h5 : s = "C1"
    · subst h5; decide
    by_cases h6 : s = "C2"
    · subst h6; decide
    simp only [mapFillna, Option.some_bind, MEDICAL_SCORE, medSpec]
    rw [lookup_str_ne h1, lookup_str_ne h2, lookup_str_ne h3, lookup_str_ne h4, lookup_str_ne h5, lookup_str_ne h6]
    simp [List.lookup, if_neg h1, if_neg h2, if_neg h3, if_neg h4, if_neg h5, if_neg h6]

theorem mapFillna_leadership (v : Option String) :
    mapFillna LEADERSHIP_MAP 1 v = leadSpec v := by
  cases v with
  | none => rfl
  | some s =>
    by_cases h1 : s = "High"
    · subst h1; decide
    by_cases h2 : s = "Medium"
    · subst h2; decide
    by_cases h3 : s = "Low"
    · subst h3; decide
    by_cases h4 : s = "Yes"
    · subst h4; decide
    by_cases h5 : s = "No"
    · subst h5; decide
    simp only [mapFillna, Option.some_bind, LEADERSHIP_MAP, leadSpec]
    rw [lookup_str_ne h1, lookup_str_ne h2, lookup_str_ne h3, lookup_str_ne h4, lookup_str_ne h5]
    simp [List.lookup, if_neg h1, if_neg h2, if_neg h3, if_neg h4, if_neg h5]

theorem mapFillna_readiness (v : Option String) :
    mapFillna READINESS_SCORE 1 v = readySpec v := by
  cases v with
  | none => rfl
  | some s =>
    by_cases h1 : s = "High"
    · subst h1; decide
    by_cases h2 : s = "Medium"
    · subst h2; decide
    by_cases h3 : s = "Low"
    · subst h3; decide
    simp only [mapFillna, Option.some_bind, READINESS_SCORE, readySpec]
    rw [lookup_str_ne h1, lookup_str_ne h2, lookup_str_ne h3]
    simp [List.lookup, if_neg h1, if_neg h2, if_neg h3]

theorem mapFillna_attrition (v : Option String) :
    mapFillna ATTRITION_RISK_MAP 2 v = attrSpec v := by
  cases v with
  | none => rfl
  | some s =>
    by_cases h1 : s = "High"
    · subst h1; decide
    by_cases h2 : s = "Medium"
    · subst h2; decide
    by_cases h3 : s = "Low"
    · subst h3; decide
    simp only [mapFillna, Option.some_bind, ATTRITION_RISK_MAP, attrSpec]
    rw [lookup_str_ne h1, lookup_str_ne h2, lookup_str_ne h3]
    simp [List.lookup, if_neg h1, if_neg h2, if_neg h3]

theorem medSpec_range (v : Option String) : 60 ≤ medSpec v ∧ medSpec v ≤ 100 := by
  cases v with
  | none => norm_num [medSpec]
  | some s => simp only [medSpec]; split_ifs <;> norm_num

theorem leadSpec_range (v : Option String) : 1 ≤ leadSpec v ∧ leadSpec v ≤ 3 := by
  cases v with
  | none => norm_num [leadSpec]
  | some s => simp only [leadSpec]; split_ifs <;> norm_num

theorem readySpec_range (v : Option String) : 1 ≤ readySpec v ∧ readySpec v ≤ 3 := by
  cases v with
  | none => norm_num [readySpec]
  | some s => simp only [readySpec]; split_ifs <;> norm_num

theorem attrSpec_range (v : Option String) : 1 ≤ attrSpec v ∧ attrSpec v ≤ 3 := by
  cases v with
  | none => norm_num [attrSpec]
  | some s => simp only [attrSpec]; split_ifs <;> norm_num

/-- **C5**: `add_derived_columns` keeps every original row (in order and
untouched) and attaches exactly the four derived scores, each given by its
documented lookup table with its documented default (attrition constantly
2 when the `Attrition_Risk` column is absent), and each within its
documented range; missing or unrecognized categorical values yield the
default, never an error. -/
theorem enrich_preserves_rows_and_scores (t : Table) :
    (add_derived_columns t).map ERow.base = t.rows
    ∧ ∀ e ∈ add_derived_columns t,
        e.Medical_Score = medSpec e.base.Medical_Category
        ∧ e.Leadership_Score = leadSpec e.base.Leadership_Potential
        ∧ e.Readiness_Score = readySpec e.base.Readiness_Level
        ∧ e.Attrition_Score
            = (if t.hasAttritionRisk then attrSpec e.base.Attrition_Risk else 2)
        ∧ (60 ≤ e.Medical_Score ∧ e.Medical_Score ≤ 100)
        ∧ (1 ≤ e.Leadership_Score ∧ e.Leadership_Score ≤ 3)
        ∧ (1 ≤ e.Readiness_Score ∧ e.Readiness_Score ≤ 3)
        ∧ (1 ≤ e.Attrition_Score ∧ e.Attrition_Score ≤ 3) := by
  constructor
  · simp [add_derived_columns, List.map_map]
    have h : (ERow.base ∘ enrichRow t.hasAttritionRisk) = id := rfl
    simp [h]
  · intro e he
    obtain ⟨r, _, rfl⟩ := List.mem_map.mp he
    refine ⟨mapFillna_medical _, mapFillna_leadership _, mapFillna_readiness _, ?_,
      ?_, ?_, ?_, ?_⟩
    · by_cases h : t.hasAttritionRisk
      · simp only [enrichRow, h, if_true]
        exact mapFillna_attrition _
      · simp [enrichRow, h]
    · rw [show (enrichRow t.hasAttritionRisk r).Medical_Score
            = medSpec r.Medical_Category from mapFillna_medical _]
      exact medSpec_range _
    · rw [show (enrichRow t.hasAttritionRisk r).Leadership_Score
            = leadSpec r.Leadership_Potential from mapFillna_leadership _]
      exact leadSpec_range _
    · rw [show (enrichRow t.hasAttritionRisk r).Readiness_Score
            = readySpec r.Readiness_Level from mapFillna_readiness _]
      exact readySpec_range _
    · by_cases h : t.hasAttritionRisk
      · have hA : (enrichRow t.hasAttritionRisk r).Attrition_Score
            = attrSpec r.Attrition_Risk := by
          simp only [enrichRow, h, if_true]
          exact mapFillna_attrition _
        rw [hA]
        exact attrSpec_range _
      · have hA : (enrichRow t.hasAttritionRisk r).Attrition_Score = 2 := by
          simp [enrichRow, h]
        rw [hA]
        norm_num

/-- Witness for C5 at the concrete table `tblP` and its single enriched
row `eP`. -/
theorem enrich_preserves_rows_and_scores_witness :
    ((add_derived_columns tblP).map ERow.base = tblP.rows)
    ∧ (eP.Medical_Score = medSpec eP.base.Medical_Category
        ∧ eP.Leadership_Score = leadSpec eP.base.Leadership_Potential
        ∧ eP.Readiness_Score = readySpec eP.base.Readiness_Level
        ∧ eP.Attrition_Score
            = (if tblP.hasAttritionRisk then attrSpec eP.base.Attrition_Risk else 2)
        ∧ (60 ≤ eP.Medical_Score ∧ eP.Medical_Score ≤ 100)
        ∧ (1 ≤ eP.Leadership_Score ∧ eP.Leadership_Score ≤ 3)
        ∧ (1 ≤ eP.Readiness_Score ∧ eP.Readiness_Score ≤ 3)
        ∧ (1 ≤ eP.Attrition_Score ∧ eP.Attrition_Score ≤ 3)) :=
  ⟨(enrich_preserves_rows_and_scores tblP).1,
   (enrich_preserves_rows_and_scores tblP).2 eP (List.mem_singleton.mpr rfl)⟩

/-! ## C4: the `Overall` score matches the spec's formula -/

theorem if_max_divisor (M : ℚ) :
    (if M ≤ 5 then (5 : ℚ) else max M 1) = if 5 < M then M else 5 := by
  rcases le_or_lt M 5 with h | h
  · rw [if_pos h, if_neg (not_lt.mpr h)]
  · rw [if_neg (not_le.mpr h), if_pos h, max_eq_left]
    linarith

theorem perfDenom_eq_spec {d : List ERow} (hne : d ≠ []) :
    perfDenom d
      = (if 5 < (listMaxQ (d.map perfCast)).getD 0
         then (listMaxQ (d.map perfCast)).getD 0 else 5) := by
  cases d with
  | nil => exact absurd rfl hne
  | cons e0 tl =>
    simp only [perfDenom, List.map_cons, listMaxQ, Option.getD_some]
    exact if_max_divisor _

theorem missionsDenom_eq_spec {d : List ERow} (hne : d ≠ []) :
    missionsDenom d = max ((listMaxQ (d.map missionsCast)).getD 0) 1 := by
  cases d with
  | nil => exact absurd rfl hne
  | cons e0 tl => simp only [missionsDenom, List.map_cons, listMaxQ, Option.getD_some]

/-- **C4**: for every row of the scored candidate table, the `Overall`
score computed by `select_best_team` equals the spec's formula
`2.5×readiness + 1.5×leadership + 1.2×(performance / 5, or / the observed
maximum when it exceeds 5) + 1.0×(medical/100) + 0.6×(training/100)
+ 0.4×(missions / max(observed maximum missions, 1))`. -/
theorem overall_matches_spec (t : Table) (x : TRow) (hx : x ∈ scoreTable t) :
    x.Overall = overallSpec t x.e := by
  obtain ⟨p, hp, rfl⟩ := List.mem_map.mp hx
  have hp2 : p.2 ∈ add_derived_columns t := by
    have h := List.enum_map_snd (add_derived_columns t)
    exact h ▸ List.mem_map_of_mem Prod.snd hp
  have hne : add_derived_columns t ≠ [] := by
    intro h
    rw [h] at hp2
    cases hp2
  show overall (perfDenom (add_derived_columns t))
      (missionsDenom (add_derived_columns t)) p.2 = overallSpec t p.2
  rw [overallSpec, perfDenom_eq_spec hne, missionsDenom_eq_spec hne]
  rfl

/-- Witness for C4 at the concrete one-row table `tblP` and its scored
row `xP`. -/
theorem overall_matches_spec_witness :
    xP ∈ scoreTable tblP ∧ xP.Overall = overallSpec tblP xP.e :=
  ⟨List.mem_singleton.mpr rfl,
   overall_matches_spec tblP xP (List.mem_singleton.mpr rfl)⟩

/-! ## C3: the heuristic attrition report sorts tier *strings* -/

/-- **C3** (code bug): on `tblC3` (no `Attrition_Risk` column) the
heuristic tiers are assigned as the claim says (`rowA` → High, `rowB` →
Low), but the report sorts the tier strings descending
lexicographically (`"Low" > "High"`), so the Low-tier row is returned
*before* the High-tier row — the claimed High-before-Medium-before-Low
order does not hold. -/
theorem attrition_heuristic_sort_bug :
    heuristicScore rowA = 3 ∧ heuristicTier rowA = "High"
    ∧ heuristicScore rowB = 0 ∧ heuristicTier rowB = "Low"
    ∧ (who_is_going_to_leave tblC3 50).map Row.Personnel_ID
        = [some "B", some "A"] := by decide

/-! ## C6: restricting to roles keeps only those roles -/

theorem mem_candidates_of_mem_select {t : Table} {headcount : ℕ}
    {roles : List String} {restrict : Bool} {x : TRow}
    (hx : x ∈ select_best_team t headcount roles restrict) :
    x ∈ candidates t roles restrict := by
  simp only [select_best_team] at hx
  have hx2 := mem_sortBy.mp (List.take_subset _ _ hx)
  rcases List.mem_append.mp hx2 with hloc | hrest
  · rcases List.mem_flatMap.mp hloc with ⟨i, _, hxi⟩
    exact (List.mem_filter.mp hxi).1
  · have h := mem_sortBy.mp (List.take_subset _ _ hrest)
    exact (List.mem_filter.mp h).1

/-- **C6**: `select_best_team` with `restrict_to_roles = true` and
`required_roles = ["Pilot"]` returns only rows whose primary skill is
exactly `"Pilot"`: the candidate table is filtered to that role set
before ranking. -/
theorem select_team_restrict_pilot_only (t : Table) (headcount : ℕ) :
    ∀ x ∈ select_best_team t headcount ["Pilot"] true,
      x.e.base.Primary_Skill = some "Pilot" := by
  intro x hx
  have hc := mem_candidates_of_mem_select hx
  have hcand : candidates t ["Pilot"] true
      = (scoreTable t).filter (fun x => skillIsin ["Pilot"] x.e) := by
    simp [candidates]
  rw [hcand] at hc
  have hskill := (List.mem_filter.mp hc).2
  unfold skillIsin at hskill
  cases hs : x.e.base.Primary_Skill with
  | none => rw [hs] at hskill; cases hskill
  | some s =>
    rw [hs] at hskill
    have hmem : s ∈ ["Pilot"] := by simpa using hskill
    rw [List.mem_singleton.mp hmem]

/-- Witness for C6: the single Pilot row of `tblP` is selected and its
skill is `"Pilot"`. -/
theorem select_team_restrict_pilot_only_witness :
    xP.e.base.Primary_Skill = some "Pilot" :=
  select_team_restrict_pilot_only tblP 1 xP (List.mem_singleton.mpr rfl)

/-! ## Counting lemmas for the reservation bookkeeping of
`select_best_team` -/

theorem countP_not_add (p : α → Bool) (l : List α) :
    l.countP (fun a => !p a) + l.countP p = l.length := by
  induction l with
  | nil => rfl
  | cons a l ih =>
    rw [List.countP_cons, List.countP_cons]
    cases h : p a <;> simp [h] <;> omega

theorem countP_beq_of_nodup {i : ℕ} {L : List ℕ} (hnd : L.Nodup) (hm : i ∈ L) :
    L.countP (fun j => j == i) = 1 := by
  induction L with
  | nil => cases hm
  | cons a L ih =>
    rw [List.countP_cons]
    rcases List.mem_cons.mp hm with rfl | hm2
    · have hni : i ∉ L := (List.nodup_cons.mp hnd).1
      have h0 : L.countP (fun j => j == i) = 0 := by
        rw [List.countP_eq_zero]
        intro a ha hcontra
        exact hni (by rwa [beq_iff_eq.mp hcontra] at ha)
      simp [h0]
    · have hne : a ≠ i := by
        rintro rfl
        exact (List.nodup_cons.mp hnd).1 hm2
      rw [ih (List.nodup_cons.mp hnd).2 hm2]
      cases hab : (a == i) with
      | true => exact absurd (beq_iff_eq.mp hab) hne
      | false => simp [hab]

theorem countP_or_disjoint {p q : ℕ → Bool} (L : List ℕ)
    (h : ∀ j, p j = true → q j = false) :
    L.countP (fun j => p j || q j) = L.countP p + L.countP q := by
  induction L with
  | nil => rfl
  | cons a L ih =>
    simp only [List.countP_cons, ih]
    cases hp : p a with
    | true =>
      have hq := h a hp
      simp [hp, hq]
      omega
    | false =>
      cases hq : q a with
      | true =>
        simp [hp, hq]
        omega
      | false => simp [hp, hq]

theorem countP_contains_eq_length {L : List ℕ} (hL : L.Nodup) :
    ∀ {picked : List ℕ}, picked.Nodup → (∀ i ∈ picked, i ∈ L) →
      L.countP (fun j => picked.contains j) = picked.length := by
  intro picked
  induction picked with
  | nil =>
    intro _ _
    rw [List.length_nil, List.countP_eq_zero]
    intro a _ hc
    exact Bool.noConfusion hc
  | cons i rest ih =>
    intro hpd hsub
    have hire : i ∉ rest := (List.nodup_cons.mp hpd).1
    have hcongr : L.countP (fun j => (i :: rest).contains j)
        = L.countP (fun j => (j == i) || rest.contains j) := by
      refine List.countP_congr ?_
      intro x _
      rw [List.contains_cons]
    have hdisj : ∀ j, (j == i) = true → rest.contains j = false := by
      intro j hj
      rw [beq_iff_eq.mp hj]
      cases hc : rest.contains i with
      | false => rfl
      | true => exact absurd (List.elem_iff.mp hc) hire
    rw [hcongr, countP_or_disjoint L hdisj,
      countP_beq_of_nodup hL (hsub i (List.mem_cons_self i rest)),
      ih (List.nodup_cons.mp hpd).2
        (fun j hj => hsub j (List.mem_cons_of_mem i hj)),
      List.length_cons]
    omega

theorem filter_idx_eq_length_one {c : List TRow} {i : ℕ}
    (hnd : (c.map TRow.idx).Nodup) (hm : i ∈ c.map TRow.idx) :
    (c.filter (fun x => x.idx == i)).length = 1 := by
  rw [← List.countP_eq_length_filter]
  have h : c.countP (fun x => x.idx == i)
      = (c.map TRow.idx).countP (fun j => j == i) := by
    rw [List.countP_map]
    rfl
  rw [h]
  exact countP_beq_of_nodup hnd hm

theorem flatMap_filter_idx_length {c : List TRow}
    (hnd : (c.map TRow.idx).Nodup) :
    ∀ {picked : List ℕ}, (∀ i ∈ picked, i ∈ c.map TRow.idx) →
      (picked.flatMap (fun i => c.filter (fun x => x.idx == i))).length
        = picked.length := by
  intro picked
  induction picked with
  | nil => intro _; rfl
  | cons i rest ih =>
    intro hsub
    rw [List.flatMap_cons, List.length_append,
      filter_idx_eq_length_one hnd (hsub i (List.mem_cons_self i rest)),
      ih (fun j hj => hsub j (List.mem_cons_of_mem i hj)), List.length_cons]
    omega

theorem filter_not_contains_length {c : List TRow} {picked : List ℕ}
    (hnd : (c.map TRow.idx).Nodup) (hpd : picked.Nodup)
    (hsub : ∀ i ∈ picked, i ∈ c.map TRow.idx) :
    (c.filter (fun x => !picked.contains x.idx)).length
      = c.length - picked.length := by
  have htot : c.countP (fun x => !picked.contains x.idx)
      + c.countP (fun x => picked.contains x.idx) = c.length :=
    countP_not_add (fun x => picked.contains x.idx) c
  have hcnt : c.countP (fun x => picked.contains x.idx) = picked.length := by
    have h : c.countP (fun x => picked.contains x.idx)
        = (c.map TRow.idx).countP (fun j => picked.contains j) := by
      rw [List.countP_map]
      rfl
    rw [h]
    exact countP_contains_eq_length hnd hpd hsub
  rw [← List.countP_eq_length_filter]
  omega

/-! ## The candidate table's DataFrame labels are distinct -/

theorem idx_map_scoreTable (t : Table) :
    (scoreTable t).map TRow.idx = List.range (add_derived_columns t).length := by
  unfold scoreTable
  rw [List.map_map]
  have h : (TRow.idx ∘ fun p : ℕ × ERow =>
      (⟨p.1, p.2, overall (perfDenom (add_derived_columns t))
        (missionsDenom (add_derived_columns t)) p.2⟩ : TRow)) = Prod.fst := rfl
  rw [h, List.enum_map_fst]

theorem idx_nodup_scoreTable (t : Table) :
    ((scoreTable t).map TRow.idx).Nodup := by
  rw [idx_map_scoreTable]
  exact List.nodup_range _

theorem idx_nodup_candidates (t : Table) (roles : List String) (restrict : Bool) :
    ((candidates t roles restrict).map TRow.idx).Nodup := by
  unfold candidates
  split
  · exact List.Nodup.sublist (List.Sublist.map _ (List.filter_sublist _))
      (idx_nodup_scoreTable t)
  · exact idx_nodup_scoreTable t

/-! ## What the reservation loop picks -/

theorem pick_spec {c : List TRow} {role : String} {i : ℕ}
    (h : pickForRole c role = some i) :
    ∃ x ∈ c, x.idx = i ∧ x.e.base.Primary_Skill = some role := by
  cases hs : sortBy leOverall
      (c.filter (fun x => x.e.base.Primary_Skill == some role)) with
  | nil =>
    have hnone : pickForRole c role = none := by
      simp only [pickForRole]
      rw [hs]
    rw [hnone] at h
    cases h
  | cons y ys =>
    have hpick : pickForRole c role = some y.idx := by
      simp only [pickForRole]
      rw [hs]
    have hy : y ∈ sortBy leOverall
        (c.filter (fun x => x.e.base.Primary_Skill == some role)) := by
      rw [hs]
      exact List.mem_cons_self _ _
    have hy2 := mem_sortBy.mp hy
    refine ⟨y, (List.mem_filter.mp hy2).1, ?_, beq_iff_eq.mp (List.mem_filter.mp hy2).2⟩
    rw [hpick] at h
    exact Option.some.inj h

theorem picked_subset {c : List TRow} {roles : List String} :
    ∀ i ∈ roles.filterMap (pickForRole c), i ∈ c.map TRow.idx := by
  intro i hi
  rcases List.mem_filterMap.mp hi with ⟨role, _, hpick⟩
  obtain ⟨x, hxc, hxi, _⟩ := pick_spec hpick
  exact hxi ▸ List.mem_map_of_mem TRow.idx hxc

theorem picked_nodup {c : List TRow} {roles : List String}
    (hnd : (c.map TRow.idx).Nodup) (hroles : roles.Nodup) :
    (roles.filterMap (pickForRole c)).Nodup := by
  refine List.Nodup.filterMap ?_ hroles
  intro a a' b hb hb'
  obtain ⟨x, hxc, hxi, hxs⟩ := pick_spec hb
  obtain ⟨x', hxc', hxi', hxs'⟩ := pick_spec hb'
  have hxx : x = x' :=
    List.inj_on_of_nodup_map hnd hxc hxc' (by rw [hxi, hxi'])
  have h := hxs
  rw [hxx, hxs'] at h
  exact (Option.some.inj h).symm

/-! ## C1: the returned team size -/

/-- **C1** (amended): for every table, positive headcount and
*duplicate-free* required-role list, `select_best_team` returns exactly
`min headcount availableRows` rows, where `availableRows` counts the
candidate rows left after any restrict-to-roles filtering — never more
than `headcount`, and all available rows (without error) when `headcount`
exceeds them.  (The duplicate-free hypothesis is forced by
`select_team_returns_min_cex`: a repeated role name reserves the same row
twice.) -/
theorem select_team_returns_min (t : Table) (headcount : ℕ)
    (roles : List String) (restrict : Bool)
    (_hpos : 0 < headcount) (hnd : roles.Nodup) :
    (select_best_team t headcount roles restrict).length
      = min headcount (availableRows t roles restrict) := by
  have hcnd := idx_nodup_candidates t roles restrict
  simp only [select_best_team, availableRows]
  by_cases hb : (!roles.isEmpty && !restrict) = true
  · rw [if_pos hb]
    have hpd : (roles.filterMap (pickForRole (candidates t roles restrict))).Nodup :=
      picked_nodup hcnd hnd
    have hsub : ∀ i ∈ roles.filterMap (pickForRole (candidates t roles restrict)),
        i ∈ (candidates t roles restrict).map TRow.idx := picked_subset
    have hple : (roles.filterMap (pickForRole (candidates t roles restrict))).length
        ≤ (candidates t roles restrict).length := by
      have h := (hpd.subperm hsub).length_le
      rwa [List.length_map] at h
    rw [List.length_take, length_sortBy, List.length_append,
      flatMap_filter_idx_length hcnd hsub,
      List.length_take, length_sortBy,
      filter_not_contains_length hcnd hpd hsub]
    omega
  · rw [if_neg hb]
    have h0 : (([] : List ℕ).flatMap
        (fun i => (candidates t roles restrict).filter (fun x => x.idx == i))) = [] := rfl
    rw [h0, List.nil_append]
    have hnull : (candidates t roles restrict).filter
        (fun x => !([] : List ℕ).contains x.idx) = candidates t roles restrict := by
      have h : (fun (x : TRow) => !([] : List ℕ).contains x.idx)
          = fun (_ : TRow) => true := rfl
      rw [h, List.filter_true]
    rw [hnull, List.length_take, length_sortBy, List.length_take, length_sortBy]
    simp only [List.length_nil, Nat.sub_zero]
    omega

/-- Witness for the amended C1 at a concrete input. -/
theorem select_team_returns_min_witness :
    (select_best_team tblP 3 ["Pilot"] false).length
      = min 3 (availableRows tblP ["Pilot"] false) :=
  select_team_returns_min tblP 3 ["Pilot"] false (by decide) (by decide)

/-- Counterexample to C1 *as stated*: with the duplicated role list
`["Pilot", "Pilot"]` on a one-row table, the reservation loop appends the
same DataFrame label twice, `d.loc[picked_idx]` duplicates that row, and
the function returns 2 rows although only 1 candidate row is available —
not `min(headcount, availableRows) = 1`. -/
theorem select_team_returns_min_cex :
    (select_best_team tblP 2 ["Pilot", "Pilot"] false).length
      ≠ min 2 (availableRows tblP ["Pilot", "Pilot"] false) := by
  have h1 : select_best_team tblP 2 ["Pilot", "Pilot"] false
      = (sortBy leOverall [xP, xP]).take 2 := rfl
  have h2 : availableRows tblP ["Pilot", "Pilot"] false = 1 := rfl
  rw [h1, h2, List.length_take, length_sortBy]
  decide

/-! ## C2: role coverage when not restricting -/

theorem mem_scoreTable_of_mem_rows {t : Table} {r : Row} (hr : r ∈ t.rows) :
    ∃ x ∈ scoreTable t, x.e.base = r := by
  have he : enrichRow t.hasAttritionRisk r ∈ add_derived_columns t :=
    List.mem_map_of_mem _ hr
  have he2 : enrichRow t.hasAttritionRisk r
      ∈ (add_derived_columns t).enum.map Prod.snd := by
    rw [List.enum_map_snd]
    exact he
  obtain ⟨p, hp, hps⟩ := List.mem_map.mp he2
  refine ⟨⟨p.1, p.2, overall (perfDenom (add_derived_columns t))
    (missionsDenom (add_derived_columns t)) p.2⟩, ?_, ?_⟩
  · exact List.mem_map_of_mem _ hp
  · show p.2.base = r
    rw [hps]
    rfl

/-- **C2**: with `restrict_to_roles = false`, a headcount at least the
number of required roles, and at least one row matching each required
role exactly, the selected team contains at least one row per required
role: the reservation picks plus the fill picks never exceed `headcount`,
so the final re-sort-and-truncate drops nothing. -/
theorem select_team_covers_roles (t : Table) (headcount : ℕ) (roles : List String)
    (hlen : roles.length ≤ headcount)
    (hcover : ∀ role ∈ roles, ∃ r ∈ t.rows, r.Primary_Skill = some role) :
    ∀ role ∈ roles, ∃ x ∈ select_best_team t headcount roles false,
      x.e.base.Primary_Skill = some role := by
  intro role hrole
  have hcand : candidates t roles false = scoreTable t := by
    simp [candidates]
  obtain ⟨r, hr, hrs⟩ := hcover role hrole
  obtain ⟨y0, hy0, hy0b⟩ := mem_scoreTable_of_mem_rows hr
  have hy0f : y0 ∈ (candidates t roles false).filter
      (fun x => x.e.base.Primary_Skill == some role) := by
    refine List.mem_filter.mpr ⟨by rw [hcand]; exact hy0, ?_⟩
    rw [hy0b, hrs]
    exact beq_self_eq_true _
  cases hs : sortBy leOverall ((candidates t roles false).filter
      (fun x => x.e.base.Primary_Skill == some role)) with
  | nil =>
    exfalso
    have h : y0 ∈ sortBy leOverall ((candidates t roles false).filter
        (fun x => x.e.base.Primary_Skill == some role)) := mem_sortBy.mpr hy0f
    rw [hs] at h
    cases h
  | cons y ys =>
    have hpick : pickForRole (candidates t roles false) role = some y.idx := by
      simp only [pickForRole]
      rw [hs]
    have hy : y ∈ sortBy leOverall ((candidates t roles false).filter
        (fun x => x.e.base.Primary_Skill == some role)) := by
      rw [hs]
      exact List.mem_cons_self _ _
    have hy2 := mem_sortBy.mp hy
    have hyc := (List.mem_filter.mp hy2).1
    have hys := beq_iff_eq.mp (List.mem_filter.mp hy2).2
    have hbne : roles.isEmpty = false := by
      cases roles with
      | nil => cases hrole
      | cons a l => rfl
    have hbcond : (!roles.isEmpty && !false) = true := by
      rw [hbne]
      rfl
    have hcnd := idx_nodup_candidates t roles false
    have hsub : ∀ i ∈ roles.filterMap (pickForRole (candidates t roles false)),
        i ∈ (candidates t roles false).map TRow.idx := picked_subset
    have hipicked : y.idx ∈ roles.filterMap (pickForRole (candidates t roles false)) :=
      List.mem_filterMap.mpr ⟨role, hrole, hpick⟩
    have hyloc : y ∈ (roles.filterMap (pickForRole (candidates t roles false))).flatMap
        (fun i => (candidates t roles false).filter (fun x => x.idx == i)) :=
      List.mem_flatMap.mpr ⟨y.idx, hipicked,
        List.mem_filter.mpr ⟨hyc, beq_self_eq_true _⟩⟩
    simp only [select_best_team]
    rw [if_pos hbcond]
    set picked := roles.filterMap (pickForRole (candidates t roles false)) with hpicked
    set rest := (sortBy leOverall ((candidates t roles false).filter
        (fun x => !picked.contains x.idx))).take (headcount - picked.length) with hrest
    have hloclen : (picked.flatMap
        (fun i => (candidates t roles false).filter (fun x => x.idx == i))).length
          = picked.length := flatMap_filter_idx_length hcnd hsub
    have hplen : picked.length ≤ roles.length := List.length_filterMap_le _ _
    have hrestlen : rest.length ≤ headcount - picked.length := by
      rw [hrest]
      exact List.length_take_le _ _
    have htot : (sortBy leOverall ((picked.flatMap
        (fun i => (candidates t roles false).filter (fun x => x.idx == i))) ++ rest)).length
          ≤ headcount := by
      rw [length_sortBy, List.length_append, hloclen]
      omega
    rw [List.take_of_length_le htot]
    exact ⟨y, mem_sortBy.mpr (List.mem_append.mpr (Or.inl hyloc)), hys⟩

/-- Witness for C2: on the Engineer+Medical table the team of two covers
the role `"Engineer"`. -/
theorem select_team_covers_roles_witness :
    ∃ x ∈ select_best_team tblEM 2 ["Engineer", "Medical"] false,
      x.e.base.Primary_Skill = some "Engineer" :=
  select_team_covers_roles tblEM 2 ["Engineer", "Medical"] (by decide)
    (by decide) "Engineer" (by decide)

/-! ## C7: the retirement what-if on "who should retire, senior pilots" -/

/-- **C7**: on the query `"who should retire, senior pilots"` the router
takes the retirement branch (highest priority, keyed on "retire"), and
the returned data is exactly the rows with years of service ≥ 15 whose
primary skill contains `"Pilot"` case-insensitively — the two mentioned
criteria "senior" and "pilot" are both applied. -/
theorem whatif_retire_senior_pilots (t : Table) :
    (what_if_simulation t "who should retire, senior pilots").action
        = "retirement_impact"
    ∧ (what_if_simulation t "who should retire, senior pilots").data
        = t.rows.filter (fun r =>
            (match r.Years_of_Service with
             | some y => decide (15 ≤ y)
             | none => false)
            && containsCI r.Primary_Skill "Pilot") := by
  have hroute : what_if_simulation t "who should retire, senior pilots"
      = analyzeRetirement t (lowerStr "who should retire, senior pilots") := by
    simp only [what_if_simulation]
    rw [if_pos (by decide)]
  rw [hroute]
  refine ⟨rfl, ?_⟩
  show ((add_derived_columns t).filter
      (retirementFilter (lowerStr "who should retire, senior pilots"))).map ERow.base
    = _
  rw [add_derived_columns, List.filter_map, List.map_map]
  have hbe : ERow.base ∘ enrichRow t.hasAttritionRisk = id := rfl
  rw [hbe, List.map_id]
  refine List.filter_congr ?_
  intro r _
  show retirementFilter (lowerStr "who should retire, senior pilots")
      (enrichRow t.hasAttritionRisk r) = _
  unfold retirementFilter
  rw [show inText "senior" (lowerStr "who should retire, senior pilots") = true
        from by decide,
    show inText "officer" (lowerStr "who should retire, senior pilots") = false
        from by decide,
    show inText "pilot" (lowerStr "who should retire, senior pilots") = true
        from by decide,
    show inText "engineer" (lowerStr "who should retire, senior pilots") = false
        from by decide]
  simp [enrichRow]

/-! ## C8: unrecognized queries fall through to the attrition default -/

/-- **C8**: a query matching none of the router's keyword sets never
errors: the router falls through to the default branch and returns
action `"show_attrition"` with the attrition-ranking data. -/
theorem whatif_unrecognized_defaults (t : Table) (q : String)
    (h1 : anyIn ["retire", "retiring", "retirement"] (lowerStr q) = false)
    (h2 : anyIn ["redeploy", "redeployment", "transfer", "move"] (lowerStr q) = false)
    (h3 : anyIn ["ground", "grounding", "medical", "unfit", "disqualify"]
        (lowerStr q) = false)
    (h4 : anyIn ["promote", "promotion", "advance"] (lowerStr q) = false)
    (h5 : anyIn ["budget", "cost", "financial", "expense"] (lowerStr q) = false)
    (h6 : (inText "training" (lowerStr q)
        && anyIn ["threshold", "score", "<", "less than", "below"] (lowerStr q))
          = false)
    (h7 : (inText "leaders" (lowerStr q) || inText "leadership" (lowerStr q)) = false)
    (h8 : (inText "team" (lowerStr q) || inText "readiness" (lowerStr q)) = false) :
    (what_if_simulation t q).action = "show_attrition"
    ∧ (what_if_simulation t q).data = who_is_going_to_leave t 50 := by
  simp only [what_if_simulation, h1, h2, h3, h4, h5, h6, h7, h8,
    Bool.false_eq_true, if_false]
  exact ⟨trivial, trivial⟩

/-- Witness for C8 at the query `"random unrelated text"`. -/
theorem whatif_unrecognized_defaults_witness :
    (what_if_simulation tblP "random unrelated text").action = "show_attrition"
    ∧ (what_if_simulation tblP "random unrelated text").data
        = who_is_going_to_leave tblP 50 :=
  whatif_unrecognized_defaults tblP "random unrelated text" (by decide) (by decide)
    (by decide) (by decide) (by decide) (by decide) (by decide) (by decide)

/-! ## C10: the what-if leadership branch truncates to 50 rows -/

/-- **C10** (implicit): any query routed to the leadership branch returns
at most 50 data rows — a truncation the standalone `leadership_list`
report does not apply (it returns every row). -/
theorem whatif_leadership_truncation (t : Table) (q : String)
    (h1 : anyIn ["retire", "retiring", "retirement"] (lowerStr q) = false)
    (h2 : anyIn ["redeploy", "redeployment", "transfer", "move"] (lowerStr q) = false)
    (h3 : anyIn ["ground", "grounding", "medical", "unfit", "disqualify"]
        (lowerStr q) = false)
    (h4 : anyIn ["promote", "promotion", "advance"] (lowerStr q) = false)
    (h5 : anyIn ["budget", "cost", "financial", "expense"] (lowerStr q) = false)
    (h6 : (inText "training" (lowerStr q)
        && anyIn ["threshold", "score", "<", "less than", "below"] (lowerStr q))
          = false)
    (h7 : (inText "leaders" (lowerStr q) || inText "leadership" (lowerStr q)) = true) :
    (what_if_simulation t q).data.length ≤ 50
    ∧ (leadership_list t).length = t.rows.length := by
  constructor
  · simp only [what_if_simulation, h1, h2, h3, h4, h5, h6, h7,
      Bool.false_eq_true, eq_self_iff_true, if_false, if_true]
    rw [List.length_map]
    exact List.length_take_le _ _
  · show (sortBy leLeader (add_derived_columns t)).length = t.rows.length
    rw [length_sortBy, add_derived_columns, List.length_map]

/-- Witness for C10: the query `"leaders"` on a 51-row table. -/
theorem whatif_leadership_truncation_witness :
    (what_if_simulation tbl51 "leaders").data.length ≤ 50
    ∧ (leadership_list tbl51).length = tbl51.rows.length :=
  whatif_leadership_truncation tbl51 "leaders" (by decide) (by decide) (by decide)
    (by decide) (by decide) (by decide) (by decide)

end Mongohaack
